import Mathlib

/-!
Verification development for the `nfchat` HMM attack-phase labeling pipeline
(`scripts/hmm/`).  The Python source is shallowly embedded in Lean: pandas
DataFrames of flows become lists of `Flow` records, numpy float arrays become
rational-valued functions, library transcendentals (`np.log1p`, the square
root inside `StandardScaler.fit`) are passed in as explicit function
parameters, and the external `hmmlearn.GaussianHMM` object is modelled as a
record of its observable attributes and methods.
-/

namespace NFChat

/-- One network-flow record, mirroring the input flow schema
(`IPV4_SRC_ADDR, ..., FLOW_DURATION_MILLISECONDS`).  Integer-valued columns
are embedded as `Int` (numpy integer dtypes). -/
structure Flow where
  src_addr : String
  dst_addr : String
  src_port : Int
  dst_port : Int
  protocol : Int
  in_bytes : Int
  out_bytes : Int
  in_pkts : Int
  out_pkts : Int
  start_ms : Int
  duration_ms : Int
  deriving Repr, DecidableEq

/-! ## Configuration constants (`scripts/hmm/config.py`) -/

def SESSION_GAP_MS : Int := 30 * 60 * 1000

def MIN_SESSION_LENGTH : Nat := 3

def PROTO_TCP : Int := 6

def PROTO_UDP : Int := 17

def PROTO_ICMP : Int := 1

def DEFAULT_N_STATES : Nat := 10

def N_ITER : Nat := 100

def RANDOM_STATE : Int := 42

/-! ## Feature extraction (`scripts/hmm/features/extractor.py`) -/

/-- `FlowFeatureExtractor._port_category` applied to one port value.
The numpy code starts from an all-zero array, then overwrites with `1`
where `1024 <= p <= 49151` and with `2` where `p >= 49152`. -/
def portCategory (p : Int) : ℚ :=
  let c : ℚ := 0
  let c := if 1024 ≤ p ∧ p ≤ 49151 then 1 else c
  let c := if 49152 ≤ p then 2 else c
  c

/-- Inter-arrival times: `iat[0] = 0`, `iat[i] = times[i] - times[i-1]`,
then `np.clip(iat, 0, 1e10)`. -/
def iatClip (prev cur : Int) : ℚ :=
  min (max ((cur : ℚ) - (prev : ℚ)) 0) (10 ^ 10)

/-- Raw 12-feature vector of one flow (`FlowFeatureExtractor._extract_features`,
one row).  `log1p : ℚ → ℚ` stands for the library function `np.log1p`;
`prev? = none` for the first flow of the batch (its inter-arrival time is 0).
Feature order: log1p bytes/pkts (0-3), log1p duration (4), log1p IAT (5),
bytes_ratio (6), pkts_per_second (7), protocol one-hots (8-10),
port_category (11). -/
def extractRow (log1p : ℚ → ℚ) (prev? : Option Flow) (f : Flow) : Fin 12 → ℚ :=
  fun j =>
    match (j : Nat) with
    | 0 => log1p (f.in_bytes : ℚ)
    | 1 => log1p (f.out_bytes : ℚ)
    | 2 => log1p (f.in_pkts : ℚ)
    | 3 => log1p (f.out_pkts : ℚ)
    | 4 => log1p (f.duration_ms : ℚ)
    | 5 =>
      match prev? with
      | none => log1p 0
      | some p => log1p (iatClip p.start_ms f.start_ms)
    | 6 => (f.in_bytes : ℚ) / ((f.out_bytes : ℚ) + 1)
    | 7 => ((f.in_pkts : ℚ) + (f.out_pkts : ℚ)) / (max (f.duration_ms : ℚ) 1 / 1000)
    | 8 => if f.protocol = PROTO_TCP then 1 else 0
    | 9 => if f.protocol = PROTO_UDP then 1 else 0
    | 10 => if f.protocol = PROTO_ICMP then 1 else 0
    | _ => portCategory f.dst_port

/-- `FlowFeatureExtractor._extract_features` over a batch of flows:
each row's inter-arrival time refers to the previous row of the batch. -/
def extractFeatures (log1p : ℚ → ℚ) (flows : List Flow) : List (Fin 12 → ℚ) :=
  (flows.zip (none :: flows.map some)).map (fun fp => extractRow log1p fp.2 fp.1)

/-- Fitted parameters of `sklearn.preprocessing.StandardScaler`:
per-column mean and scale. -/
structure Scaler where
  mean : Fin 12 → ℚ
  scale : Fin 12 → ℚ

/-- `StandardScaler.transform`: per column, subtract the fitted mean and
divide by the fitted scale — applied to every one of the 12 columns. -/
def scalerTransform (s : Scaler) (X : List (Fin 12 → ℚ)) : List (Fin 12 → ℚ) :=
  X.map (fun row j => (row j - s.mean j) / s.scale j)

/-- Column mean of a feature matrix. -/
def colMean (X : List (Fin 12 → ℚ)) (j : Fin 12) : ℚ :=
  (X.map (fun row => row j)).sum / X.length

/-- Column (population) variance of a feature matrix. -/
def colVar (X : List (Fin 12 → ℚ)) (j : Fin 12) : ℚ :=
  (X.map (fun row => (row j - colMean X j) ^ 2)).sum / X.length

/-- `StandardScaler.fit`: store the column means, and as scale the square
root of the column variance, with zero variance replaced by scale 1
(sklearn `_handle_zeros_in_scale`).  `sqrtQ : ℚ → ℚ` stands for the library
square root. -/
def scalerFit (sqrtQ : ℚ → ℚ) (X : List (Fin 12 → ℚ)) : Scaler :=
  { mean := colMean X
    scale := fun j => if colVar X j = 0 then 1 else sqrtQ (colVar X j) }

/-- State of a `FlowFeatureExtractor`: `none` before `fit_transform` has run
(`_is_fitted = False`), `some s` afterwards with `s` the fitted scaler. -/
def FFEState := Option Scaler

/-- `FlowFeatureExtractor.transform(flows, normalize)`: extract raw features,
then apply the fitted scaler only when `normalize` is true and the extractor
has been fitted; otherwise return the raw features. -/
def FFEtransform (log1p : ℚ → ℚ) (e : Option Scaler) (flows : List Flow)
    (normalize : Bool) : List (Fin 12 → ℚ) :=
  let raw := extractFeatures log1p flows
  match normalize, e with
  | true, some s => scalerTransform s raw
  | _, _ => raw

/-- `FlowFeatureExtractor.fit_transform(flows)`: fit the scaler on the raw
features, mark the extractor fitted, return the normalized features and the
new extractor state. -/
def FFEfitTransform (log1p sqrtQ : ℚ → ℚ) (flows : List Flow) :
    List (Fin 12 → ℚ) × Option Scaler :=
  let raw := extractFeatures log1p flows
  let s := scalerFit sqrtQ raw
  (scalerTransform s raw, some s)

/-! ## Session building (`scripts/hmm/data/session_builder.py`) -/

/-- A session: the flows of one gap-delimited run from a single source,
with its identifier `f"{src_ip}_{start_time}"`. -/
structure Session where
  session_id : String
  flows : List Flow
  deriving Repr, DecidableEq

/-- `group.sort_values('FLOW_START_MILLISECONDS')`: sort ascending by flow
start time. -/
def sortByStart (l : List Flow) : List Flow :=
  List.insertionSort (fun a b => a.start_ms ≤ b.start_ms) l

/-- Gap-splitting of a (time-sorted) run of flows: the numpy code computes
`gaps = times[1:] - times[:-1]` and slices the run at every index whose gap
is strictly greater than `g`.  Equivalently, walking the list, a new chunk
starts exactly after each adjacent pair whose start-time difference
exceeds `g`. -/
def chunkByGap (g : Int) : List Flow → List (List Flow)
  | [] => []
  | [f] => [[f]]
  | f1 :: f2 :: rest =>
    match chunkByGap g (f2 :: rest) with
    | [] => [[f1]]
    | c :: cs =>
      if f2.start_ms - f1.start_ms > g then [f1] :: c :: cs
      else (f1 :: c) :: cs

/-- `SessionBuilder._create_session`: `None` when the run is below the
minimum length, otherwise the run tagged with
`session_id = f"{src_ip}_{start_time}"` where `start_time` is the minimum
flow start time. -/
def createSession (min_length : Nat) (src_ip : String) (flows : List Flow) :
    Option Session :=
  if flows.length < min_length then none
  else
    let start_time := ((flows.map (fun f => f.start_ms)).min?).getD 0
    some ⟨s!"{src_ip}_{start_time}", flows⟩

/-- Lexicographic comparison of character lists by codepoint (the ordering
pandas uses on string group keys). -/
def charListLe : List Char → List Char → Bool
  | [], _ => true
  | _ :: _, [] => false
  | a :: as, b :: bs =>
    if a.toNat < b.toNat then true
    else if b.toNat < a.toNat then false
    else charListLe as bs

/-- String comparison by codepoint-lexicographic order. -/
def strLe (a b : String) : Bool :=
  charListLe a.data b.data

/-- Distinct elements of a list, first occurrence kept. -/
def uniqueKeys (l : List String) : List String :=
  l.foldl (fun acc k => if acc.contains k then acc else acc ++ [k]) []

/-- Keys of `flows.groupby('IPV4_SRC_ADDR')`: the distinct source addresses,
in ascending order (pandas sorts group keys). -/
def groupKeys (flows : List Flow) : List String :=
  List.insertionSort (fun a b => strLe a b = true)
    (uniqueKeys (flows.map (fun f => f.src_addr)))

/-- `SessionBuilder.build_sessions`: group by source address, sort each
group by start time, split at gaps strictly greater than `gap_ms`, and keep
the runs that reach `min_length`. -/
def buildSessions (gap_ms : Int) (min_length : Nat) (flows : List Flow) :
    List Session :=
  (groupKeys flows).flatMap (fun src =>
    let group := sortByStart (flows.filter (fun f => f.src_addr = src))
    (chunkByGap gap_ms group).filterMap (fun c => createSession min_length src c))

/-! ## State signatures (`scripts/hmm/interpretation/state_analyzer.py`) -/

/-- The `protocol_dist` dictionary: fractions for keys `'tcp'`, `'udp'`,
`'icmp'` (the only keys `_compute_protocol_dist` ever produces). -/
structure ProtocolDist where
  tcp : ℚ
  udp : ℚ
  icmp : ℚ
  deriving Repr, DecidableEq

/-- The `port_category_dist` dictionary: fractions for keys `0`, `1`, `2`. -/
structure PortCategoryDist where
  wellKnown : ℚ
  registered : ℚ
  ephemeral : ℚ
  deriving Repr, DecidableEq

/-- `StateSignature` dataclass. -/
structure StateSignature where
  state_id : Int
  avg_in_bytes : ℚ
  avg_out_bytes : ℚ
  bytes_ratio : ℚ
  avg_duration_ms : ℚ
  avg_pkts_per_sec : ℚ
  protocol_dist : ProtocolDist
  port_category_dist : PortCategoryDist
  flow_count : Nat
  deriving Repr, DecidableEq

/-- Distinct elements of a list, first occurrence kept. -/
def distinctFirst {α : Type} [BEq α] (l : List α) : List α :=
  l.foldl (fun acc k => if acc.contains k then acc else acc ++ [k]) []

/-- `StateAnalyzer._compute_signature` for one state's group of flows. -/
def computeSignature (state_id : Int) (rows : List Flow) : StateSignature :=
  let n : ℚ := rows.length
  let avg_in_bytes := (rows.map (fun f => (f.in_bytes : ℚ))).sum / n
  let avg_out_bytes := (rows.map (fun f => (f.out_bytes : ℚ))).sum / n
  let pps := fun (f : Flow) =>
    ((f.in_pkts : ℚ) + (f.out_pkts : ℚ)) / (max (f.duration_ms : ℚ) 1 / 1000)
  { state_id := state_id
    avg_in_bytes := avg_in_bytes
    avg_out_bytes := avg_out_bytes
    bytes_ratio := avg_in_bytes / (avg_out_bytes + 1)
    avg_duration_ms := (rows.map (fun f => (f.duration_ms : ℚ))).sum / n
    avg_pkts_per_sec := (rows.map pps).sum / n
    protocol_dist :=
      { tcp := ((rows.filter (fun f => f.protocol = PROTO_TCP)).length : ℚ) / n
        udp := ((rows.filter (fun f => f.protocol = PROTO_UDP)).length : ℚ) / n
        icmp := ((rows.filter (fun f => f.protocol = PROTO_ICMP)).length : ℚ) / n }
    port_category_dist :=
      { wellKnown :=
          ((rows.filter (fun f => 0 ≤ f.dst_port ∧ f.dst_port ≤ 1023)).length : ℚ) / n
        registered :=
          ((rows.filter (fun f => 1024 ≤ f.dst_port ∧ f.dst_port ≤ 49151)).length : ℚ) / n
        ephemeral := ((rows.filter (fun f => 49152 ≤ f.dst_port)).length : ℚ) / n }
    flow_count := rows.length }

/-- `StateAnalyzer.analyze`: group the labeled flows by their `HMM_STATE`
value (pandas iterates group keys in ascending order), compute one signature
per state; the result is sorted by state id. -/
def analyze (labeled : List (Flow × Int)) : List StateSignature :=
  (List.insertionSort (fun a b => a ≤ b) (distinctFirst (labeled.map (fun r => r.2)))).map
    (fun s => computeSignature s ((labeled.filter (fun r => r.2 = s)).map (fun r => r.1)))

/-! ## MITRE mapping (`scripts/hmm/interpretation/mitre_mapper.py`) -/

/-- `_clamp(value)` with default bounds `[0, 1]`. -/
def clamp (value : ℚ) : ℚ :=
  max 0 (min 1 value)

/-- `_reconnaissance_score`. -/
def reconnaissanceScore (sig : StateSignature) : ℚ :=
  let score : ℚ := 0
  let score := if sig.avg_in_bytes < 500 ∧ sig.avg_out_bytes < 500 then score + 3/10 else score
  let score := if sig.avg_duration_ms < 1000 then score + 2/10 else score
  let score := if sig.avg_pkts_per_sec > 10 then score + 2/10 else score
  let score := if sig.port_category_dist.wellKnown > 5/10 then score + 3/10 else score
  clamp score

/-- `_exfiltration_score`. -/
def exfiltrationScore (sig : StateSignature) : ℚ :=
  let score : ℚ := 0
  let score := if sig.avg_out_bytes > 10000 then score + 3/10 else score
  let score := if sig.bytes_ratio < 1/10 then score + 3/10 else score
  let score := if sig.avg_duration_ms > 10000 then score + 2/10 else score
  let score := if sig.port_category_dist.ephemeral > 5/10 then score + 2/10 else score
  clamp score

/-- `_c2_score`. -/
def c2Score (sig : StateSignature) : ℚ :=
  let score : ℚ := 0
  let score := if sig.avg_duration_ms > 30000 then score + 3/10 else score
  let score := if sig.avg_pkts_per_sec < 2 then score + 2/10 else score
  let score := if 5/10 < sig.bytes_ratio ∧ sig.bytes_ratio < 2 then score + 1/10 else score
  let score := if sig.port_category_dist.ephemeral > 5/10 then score + 2/10 else score
  let score := if sig.protocol_dist.tcp > 8/10 then score + 2/10 else score
  clamp score

/-- `_lateral_movement_score`. -/
def lateralMovementScore (sig : StateSignature) : ℚ :=
  let score : ℚ := 0
  let score := if 1000 < sig.avg_in_bytes ∧ sig.avg_in_bytes < 100000 then score + 2/10 else score
  let score := if sig.port_category_dist.wellKnown > 2/10 ∧ sig.port_category_dist.registered > 2/10
    then score + 3/10 else score
  let score := if 1000 < sig.avg_duration_ms ∧ sig.avg_duration_ms < 30000 then score + 2/10 else score
  let score := if sig.protocol_dist.tcp > 7/10 then score + 3/10 else score
  clamp score

/-- `_benign_score`. -/
def benignScore (sig : StateSignature) : ℚ :=
  let score : ℚ := 0
  let score := if 5/10 < sig.bytes_ratio ∧ sig.bytes_ratio < 2 then score + 3/10 else score
  let score := if sig.protocol_dist.tcp < 9/10 ∧ sig.protocol_dist.udp > 1/10 then score + 2/10 else score
  let score := if sig.flow_count > 1000 then score + 2/10 else score
  let score := if sig.port_category_dist.wellKnown > 2/10 ∧ sig.port_category_dist.registered > 2/10
    then score + 3/10 else score
  clamp score

/-- `_credential_access_score`. -/
def credentialAccessScore (sig : StateSignature) : ℚ :=
  let score : ℚ := 0
  let score := if sig.avg_in_bytes < 1000 ∧ sig.avg_out_bytes < 1000 then score + 3/10 else score
  let score := if sig.port_category_dist.wellKnown > 6/10 then score + 3/10 else score
  let score := if sig.avg_duration_ms < 5000 then score + 2/10 else score
  let score := if sig.protocol_dist.tcp > 9/10 then score + 2/10 else score
  clamp score

/-- `TacticProfile` dataclass. -/
structure TacticProfile where
  tactic : String
  score_fn : StateSignature → ℚ

/-- `MitreMapper.__init__`: the fixed, ordered list of tactic profiles
(Discovery reuses the reconnaissance scoring function). -/
def profiles : List TacticProfile :=
  [⟨"Reconnaissance", reconnaissanceScore⟩,
   ⟨"Discovery", reconnaissanceScore⟩,
   ⟨"Credential Access", credentialAccessScore⟩,
   ⟨"Lateral Movement", lateralMovementScore⟩,
   ⟨"Command and Control", c2Score⟩,
   ⟨"Exfiltration", exfiltrationScore⟩,
   ⟨"Benign", benignScore⟩]

/-- One step of the loop body of `MitreMapper.map`: keep the running best,
replacing it only on a strictly larger score. -/
def mapStep (sig : StateSignature) (best : String × ℚ) (p : TacticProfile) : String × ℚ :=
  if p.score_fn sig > best.2 then (p.tactic, p.score_fn sig) else best

/-- `MitreMapper.map`: iterate the profiles in declaration order starting
from `('Unknown', 0.0)`. -/
def mapSignature (sig : StateSignature) : String × ℚ :=
  profiles.foldl (mapStep sig) ("Unknown", 0)

/-- `MitreMapper.map_all`: one `(state_id, (tactic, confidence))` entry per
signature. -/
def mapAll (sigs : List StateSignature) : List (Int × (String × ℚ)) :=
  sigs.map (fun s => (s.state_id, mapSignature s))

/-! ## HMM model wrapper (`scripts/hmm/model/hmm.py`)

`hmmlearn.hmm.GaussianHMM` is an external library object; it is embedded as
a record of the attributes and methods `AttackPhaseHMM` reads from it. -/

/-- A fitted `hmmlearn` Gaussian HMM: learned parameter matrices plus its
`predict` (Viterbi) and `score` (log-likelihood) methods. -/
structure GaussianHMM where
  transmat : List (List ℚ)
  means : List (List ℚ)
  covars : List (List ℚ)
  viterbi : List (Fin 12 → ℚ) → List Nat → List Int
  loglik : List (Fin 12 → ℚ) → List Nat → ℚ

/-- `AttackPhaseHMM`: configuration plus the optional underlying library
model (`None` until `fit` is called). -/
structure AttackPhaseHMM where
  n_states : Nat
  n_iter : Nat
  random_state : Int
  model : Option GaussianHMM

/-- `AttackPhaseHMM.__init__`: `random_state = random_state if random_state
is not None else RANDOM_STATE`; the model starts unfitted. -/
def AttackPhaseHMM.init (n_states n_iter : Nat) (random_state : Option Int) :
    AttackPhaseHMM :=
  ⟨n_states, n_iter, random_state.getD RANDOM_STATE, none⟩

/-- The invalid-state message raised by every operation that needs a fitted
model. -/
def notFittedMsg : String := "Model not fitted. Call fit() first."

/-- `AttackPhaseHMM.fit`: build and fit a fresh library model; the library
training procedure is the parameter `fitFn` (from
`n_components, n_iter, random_state` and the data).  Returns the updated
object (`return self`). -/
def AttackPhaseHMM.fit
    (fitFn : Nat → Nat → Int → List (Fin 12 → ℚ) → List Nat → GaussianHMM)
    (h : AttackPhaseHMM) (X : List (Fin 12 → ℚ)) (lengths : List Nat) :
    AttackPhaseHMM :=
  { h with model := some (fitFn h.n_states h.n_iter h.random_state X lengths) }

/-- `AttackPhaseHMM.predict_states`: error on an unfitted model, else the
library Viterbi decode.  The second component is the object's state after
the call. -/
def AttackPhaseHMM.predict_states (h : AttackPhaseHMM) (X : List (Fin 12 → ℚ))
    (lengths : List Nat) : Except String (List Int) × AttackPhaseHMM :=
  match h.model with
  | none => (.error notFittedMsg, h)
  | some m => (.ok (m.viterbi X lengths), h)

/-- `AttackPhaseHMM.score`. -/
def AttackPhaseHMM.score (h : AttackPhaseHMM) (X : List (Fin 12 → ℚ))
    (lengths : List Nat) : Except String ℚ × AttackPhaseHMM :=
  match h.model with
  | none => (.error notFittedMsg, h)
  | some m => (.ok (m.loglik X lengths), h)

/-- `AttackPhaseHMM.get_transition_matrix`. -/
def AttackPhaseHMM.get_transition_matrix (h : AttackPhaseHMM) :
    Except String (List (List ℚ)) × AttackPhaseHMM :=
  match h.model with
  | none => (.error notFittedMsg, h)
  | some m => (.ok m.transmat, h)

/-- `AttackPhaseHMM.get_emission_means`. -/
def AttackPhaseHMM.get_emission_means (h : AttackPhaseHMM) :
    Except String (List (List ℚ)) × AttackPhaseHMM :=
  match h.model with
  | none => (.error notFittedMsg, h)
  | some m => (.ok m.means, h)

/-- `AttackPhaseHMM.get_emission_covariances`. -/
def AttackPhaseHMM.get_emission_covariances (h : AttackPhaseHMM) :
    Except String (List (List ℚ)) × AttackPhaseHMM :=
  match h.model with
  | none => (.error notFittedMsg, h)
  | some m => (.ok m.covars, h)

/-- `AttackPhaseHMM.compute_bic`:
`BIC = -2 * log_likelihood + n_params * log(n_samples)`; `logFn` stands for
the library function `np.log`, and the feature count is 12 (the second
dimension of `X`). -/
def AttackPhaseHMM.compute_bic (logFn : ℚ → ℚ) (h : AttackPhaseHMM)
    (X : List (Fin 12 → ℚ)) (lengths : List Nat) :
    Except String ℚ × AttackPhaseHMM :=
  match h.model with
  | none => (.error notFittedMsg, h)
  | some m =>
    let n_samples : ℚ := X.length
    let n_features : ℚ := 12
    let log_likelihood := m.loglik X lengths
    let n_params : ℚ :=
      ((h.n_states : ℚ) - 1) +
      (h.n_states : ℚ) * ((h.n_states : ℚ) - 1) +
      (h.n_states : ℚ) * n_features * 2
    (.ok (-2 * log_likelihood + n_params * logFn n_samples), h)

/-- The on-disk record written by `AttackPhaseHMM.save` (the contents of the
joblib-serialized dictionary). -/
structure SavedModel where
  n_states : Nat
  n_iter : Nat
  random_state : Int
  model : Option GaussianHMM

/-- `AttackPhaseHMM.save`: serialize the four fields (joblib round-trips the
record unchanged). -/
def AttackPhaseHMM.save (h : AttackPhaseHMM) : SavedModel :=
  ⟨h.n_states, h.n_iter, h.random_state, h.model⟩

/-- `AttackPhaseHMM.load`: rebuild via `__init__` from the saved
configuration, then restore the saved library model. -/
def AttackPhaseHMM.load (d : SavedModel) : AttackPhaseHMM :=
  let base := AttackPhaseHMM.init d.n_states d.n_iter (some d.random_state)
  { base with model := d.model }

/-- Loop body of `select_n_states`: on a raised exception (`none`) the
candidate is skipped (`continue`); on success the running best is replaced
when `bic < best_bic` (a `none` running best is `np.inf`). -/
def selectStep (fitBic : Nat → Option ℚ) (best : Option ℚ × Nat) (k : Nat) :
    Option ℚ × Nat :=
  match fitBic k with
  | none => best
  | some bic =>
    match best.1 with
    | none => (some bic, k)
    | some best_bic => if bic < best_bic then (some bic, k) else best

/-- `AttackPhaseHMM.select_n_states`: try each candidate `k` in
`range(min_states, max_states + 1)`; `fitBic k` is the outcome of the `try`
block (`some bic` when construction, fitting and BIC computation succeed,
`none` when any exception is raised, in which case the candidate is
skipped).  `none` as running best BIC plays the role of `np.inf`. -/
def select_n_states (fitBic : Nat → Option ℚ) (min_states max_states : Nat) : Nat :=
  ((List.range' min_states (max_states + 1 - min_states)).foldl
    (selectStep fitBic) ((none : Option ℚ), min_states)).2

/-- The loop body of `select_n_states` restricted to successful candidates
(spec-side formulation for the amended model-order-selection claim). -/
def succStep (best : Option ℚ × Nat) (kb : Nat × ℚ) : Option ℚ × Nat :=
  match best.1 with
  | none => (some kb.2, kb.1)
  | some best_bic => if kb.2 < best_bic then (some kb.2, kb.1) else best

/-- Spec-side formulation of the amended claim: selection over only the
successful `(candidate, BIC)` pairs, falling back to the lowest candidate
when the list of successes is empty. -/
def selectFromSuccessfulCandidates (lo : Nat) (succ : List (Nat × ℚ)) : Nat :=
  (succ.foldl succStep ((none : Option ℚ), lo)).2

/-! ## Labeling pipeline (`scripts/hmm/cli/label.py`) -/

/-- One row of the labeled output table: the original flow plus the three
added columns `HMM_STATE`, `HMM_TACTIC`, `HMM_CONFIDENCE`. -/
structure LabeledFlow where
  flow : Flow
  hmm_state : Int
  hmm_tactic : String
  hmm_confidence : ℚ
  deriving Repr, DecidableEq

/-- `label_flows` (the part between loading the inputs and writing the
parquet file): build sessions with the default gap and minimum length; when
no session survives, emit every flow with the sentinel labels; otherwise
decode each session, analyze the decoded states, map them to tactics, and
emit the concatenated labeled session rows. -/
def labelFlows (log1p : ℚ → ℚ) (model : AttackPhaseHMM) (extractor : Option Scaler)
    (flows : List Flow) : Except String (List LabeledFlow) :=
  let sessions := buildSessions SESSION_GAP_MS MIN_SESSION_LENGTH flows
  if sessions.isEmpty then
    .ok (flows.map (fun f => ⟨f, -1, "Unknown", 0⟩))
  else do
    let labeled ← sessions.foldlM (fun (acc : List (Flow × Int)) s => do
      let features := FFEtransform log1p extractor s.flows extractor.isSome
      let states ← (model.predict_states features [features.length]).1
      pure (acc ++ s.flows.zip states)) []
    let sigs := analyze labeled
    let mappings := mapAll sigs
    pure (labeled.map (fun r =>
      let m := (mappings.lookup r.2).getD ("Unknown", 0)
      ⟨r.1, r.2, m.1, m.2⟩))

/-! ## Concrete fixtures used to instantiate the theorems -/

/-- A flow with every field fixed except source address, destination port
and start time. -/
def mkFlow (src : String) (port : Int) (t : Int) : Flow :=
  ⟨src, "10.0.0.100", 40000, port, PROTO_TCP, 100, 200, 10, 15, t, 1000⟩

/-- Two flows identical in every raw feature except the port category
(ports 22 and 65000, categories 0 and 2): after fitting, every feature
column has variance 0 except the port-category column, whose variance is 1. -/
def fitFlowsC2 : List Flow :=
  [mkFlow "192.168.1.1" 22 1000, mkFlow "192.168.1.1" 65000 1000]

/-- A probe flow with a well-known destination port (raw port category 0). -/
def probeFlowC2 : Flow := mkFlow "192.168.1.1" 22 1000

/-- A fitted library model whose Viterbi decode assigns state 0 to every
observation. -/
def gaussConst : GaussianHMM :=
  ⟨[[1]], [[0,0,0,0,0,0,0,0,0,0,0,0]], [[1,1,1,1,1,1,1,1,1,1,1,1]],
   fun X _ => List.replicate X.length 0, fun _ _ => 0⟩

/-- A fitted `AttackPhaseHMM` wrapping `gaussConst`. -/
def fittedModel : AttackPhaseHMM := ⟨1, 100, 42, some gaussConst⟩

/-- An untrained `AttackPhaseHMM` (`fit` never called). -/
def untrainedModel : AttackPhaseHMM := AttackPhaseHMM.init 5 100 none

/-- Flow table for the labeling-pipeline claim: source `"10.0.0.1"`
contributes three flows one millisecond apart (a valid session), source
`"192.168.1.9"` contributes a single flow (below the minimum session
length, so it belongs to no valid session). -/
def mixedFlows : List Flow :=
  [mkFlow "10.0.0.1" 22 0, mkFlow "10.0.0.1" 22 1, mkFlow "10.0.0.1" 22 2,
   mkFlow "192.168.1.9" 22 0]

/-- Three same-source flows whose consecutive gaps are exactly 10 ms: with
gap threshold 10 they stay in a single session (inclusive boundary). -/
def sessionFlowsW : List Flow :=
  [mkFlow "10.0.0.1" 22 0, mkFlow "10.0.0.1" 22 10, mkFlow "10.0.0.1" 22 20]

/-- The signature of the exfiltration scenario: high outbound bytes, tiny
bytes ratio, long duration, mostly ephemeral ports. -/
def sigExfil : StateSignature :=
  ⟨0, 50, 100000, 1/1000, 30000, 1, ⟨1, 0, 0⟩, ⟨1/10, 2/10, 7/10⟩, 50⟩

/-- A reconnaissance-style signature: low bytes, short duration, high
packet rate, mostly well-known ports.  Both the Reconnaissance and the
Discovery profile score 1 on it, so it exercises the first-wins tie rule. -/
def sigRecon : StateSignature :=
  ⟨0, 100, 200, 3, 500, 20, ⟨1, 0, 0⟩, ⟨8/10, 1/10, 1/10⟩, 50⟩

/-! # Theorems -/

theorem clamp_nonneg (x : ℚ) : 0 ≤ clamp x := le_max_left 0 _

theorem clamp_le_one (x : ℚ) : clamp x ≤ 1 := by
  unfold clamp
  rcases le_total 1 x with h | h
  · simp [min_eq_left h]
  · simp only [min_eq_right h]
    exact max_le (by norm_num) h

theorem clamp_le_self (x : ℚ) (hx : 0 ≤ x) : clamp x ≤ x := by
  unfold clamp
  exact max_le hx (min_le_right 1 x)

/-- **C10.** For every integer destination port, `_port_category` yields 0
below port 1024 (negative values included), 1 on 1024-49151, and 2 at or
above 49152, with no upper bound at 65535: out-of-range ports are silently
categorized, never rejected. -/
theorem portCategory_complete (p : Int) :
    (p < 1024 → portCategory p = 0) ∧
    ((1024 ≤ p ∧ p ≤ 49151) → portCategory p = 1) ∧
    (49152 ≤ p → portCategory p = 2) := by
  refine ⟨fun h => ?_, fun h => ?_, fun h => ?_⟩ <;>
    simp only [portCategory] <;> split_ifs <;> first | rfl | omega

theorem portCategory_complete_witness :
    ((-5 : Int) < 1024 ∧ portCategory (-5) = 0) ∧
    ((1024 ≤ (1024 : Int) ∧ (1024 : Int) ≤ 49151) ∧ portCategory 1024 = 1) ∧
    (49152 ≤ (70000 : Int) ∧ portCategory 70000 = 2) :=
  ⟨⟨by norm_num, (portCategory_complete (-5)).1 (by norm_num)⟩,
   ⟨⟨by norm_num, by norm_num⟩, (portCategory_complete 1024).2.1 ⟨by norm_num, by norm_num⟩⟩,
   ⟨by norm_num, (portCategory_complete 70000).2.2 (by norm_num)⟩⟩

/-- **C2 counterexample.** Fitting the extractor on two flows that differ
only in port category (ports 22 and 65000) and then transforming a flow
with port 22 standardizes the port-category column too: the transformed
feature 12 is `(0 - 1)/1 = -1`, not the raw value `0`.  This refutes the
claim that only the continuous features are standardized. -/
theorem transform_standardizes_port_category :
    ((FFEtransform id ((FFEfitTransform id id fitFlowsC2).2) [probeFlowC2] true).map
        (fun row => row 11) = [(-1 : ℚ)]) ∧
    ((extractFeatures id [probeFlowC2]).map (fun row => row 11) = [(0 : ℚ)]) := by
  constructor <;>
    norm_num [FFEtransform, FFEfitTransform, scalerTransform, scalerFit, colVar, colMean,
      extractFeatures, extractRow, fitFlowsC2, probeFlowC2, mkFlow, portCategory]

/-- **C2 (amended).** When the normalizer has been fitted, `transform`
standardizes every one of the 12 feature columns — the one-hot protocol
indicators and the port-category column included, not only the continuous
features; when the normalizer has not been fitted (or `normalize=False`),
`transform` returns the raw unnormalized features. -/
theorem transform_contract (log1p : ℚ → ℚ) (s : Scaler) (flows : List Flow) :
    (FFEtransform log1p (some s) flows true =
      (extractFeatures log1p flows).map
        (fun row j => (row j - s.mean j) / s.scale j)) ∧
    (∀ normalize, FFEtransform log1p none flows normalize = extractFeatures log1p flows) ∧
    (FFEtransform log1p (some s) flows false = extractFeatures log1p flows) :=
  ⟨rfl, fun normalize => by cases normalize <;> rfl, rfl⟩

/-- Every profile's scoring function is clamped to `[0, 1]`. -/
theorem profile_score_bounds (sig : StateSignature) :
    ∀ p ∈ profiles, 0 ≤ p.score_fn sig ∧ p.score_fn sig ≤ 1 := by
  intro p hp
  simp only [profiles, List.mem_cons, List.not_mem_nil, or_false] at hp
  rcases hp with rfl | rfl | rfl | rfl | rfl | rfl | rfl <;>
    simp only [reconnaissanceScore, credentialAccessScore, lateralMovementScore,
      c2Score, exfiltrationScore, benignScore] <;>
    exact ⟨clamp_nonneg _, clamp_le_one _⟩

/-- Characterization of the best-score fold of `MitreMapper.map`: the fold
either leaves the accumulator untouched (no profile beats it) or returns
the first profile whose score strictly exceeds every earlier profile's
score, the accumulator's score, and weakly every later profile's score. -/
theorem mapFold_spec (sig : StateSignature) :
    ∀ (ps : List TacticProfile) (acc : String × ℚ),
      (ps.foldl (mapStep sig) acc = acc ∧ ∀ p ∈ ps, p.score_fn sig ≤ acc.2) ∨
      (∃ pre p suf, ps = pre ++ p :: suf ∧
        ps.foldl (mapStep sig) acc = (p.tactic, p.score_fn sig) ∧
        acc.2 < p.score_fn sig ∧
        (∀ q ∈ pre, q.score_fn sig < p.score_fn sig) ∧
        (∀ q ∈ suf, q.score_fn sig ≤ p.score_fn sig)) := by
  intro ps
  induction ps with
  | nil => intro acc; left; exact ⟨rfl, by simp⟩
  | cons p ps ih =>
    intro acc
    rw [List.foldl_cons]
    by_cases hp : p.score_fn sig > acc.2
    · have hstep : mapStep sig acc p = (p.tactic, p.score_fn sig) := by
        simp only [mapStep, if_pos hp]
      rw [hstep]
      rcases ih (p.tactic, p.score_fn sig) with ⟨heq, hle⟩ | ⟨pre, q, suf, hps, heq, hlt, hpre, hsuf⟩
      · right
        exact ⟨[], p, ps, rfl, heq, hp, by simp, fun q hq => hle q hq⟩
      · right
        refine ⟨p :: pre, q, suf, by rw [hps, List.cons_append], heq, lt_trans hp hlt, ?_, hsuf⟩
        intro r hr
        rcases List.mem_cons.mp hr with rfl | hr
        · exact hlt
        · exact hpre r hr
    · push_neg at hp
      have hstep : mapStep sig acc p = acc := by
        simp only [mapStep, if_neg (not_lt.mpr hp)]
      rw [hstep]
      rcases ih acc with ⟨heq, hle⟩ | ⟨pre, q, suf, hps, heq, hlt, hpre, hsuf⟩
      · left
        refine ⟨heq, fun r hr => ?_⟩
        rcases List.mem_cons.mp hr with rfl | hr
        · exact hp
        · exact hle r hr
      · right
        refine ⟨p :: pre, q, suf, by rw [hps, List.cons_append], heq, hlt, ?_, hsuf⟩
        intro r hr
        rcases List.mem_cons.mp hr with rfl | hr
        · exact lt_of_le_of_lt hp hlt
        · exact hpre r hr

/-- **C4.** `MitreMapper.map` iterates the fixed ordered profile list
(Reconnaissance, Discovery, Credential Access, Lateral Movement, Command
and Control, Exfiltration, Benign); it returns `("Unknown", 0)` when every
profile scores 0, otherwise the tactic of the first profile attaining the
strictly highest score (earliest declaration wins exact ties), and the
returned confidence always lies in `[0, 1]`. -/
theorem mapSignature_selection (sig : StateSignature) :
    profiles.map (fun p => p.tactic) =
      ["Reconnaissance", "Discovery", "Credential Access", "Lateral Movement",
       "Command and Control", "Exfiltration", "Benign"] ∧
    (0 ≤ (mapSignature sig).2 ∧ (mapSignature sig).2 ≤ 1) ∧
    ((∀ p ∈ profiles, p.score_fn sig = 0) → mapSignature sig = ("Unknown", 0)) ∧
    ((∃ p ∈ profiles, 0 < p.score_fn sig) →
      ∃ pre p suf, profiles = pre ++ p :: suf ∧
        mapSignature sig = (p.tactic, p.score_fn sig) ∧
        (∀ q ∈ pre, q.score_fn sig < p.score_fn sig) ∧
        (∀ q ∈ suf, q.score_fn sig ≤ p.score_fn sig)) := by
  refine ⟨rfl, ?_, ?_, ?_⟩
  · rcases mapFold_spec sig profiles ("Unknown", 0) with ⟨heq, _⟩ | ⟨pre, p, suf, hps, heq, _, _, _⟩
    · rw [mapSignature, heq]; norm_num
    · rw [mapSignature, heq]
      exact (profile_score_bounds sig p (by rw [hps]; simp))
  · intro hall
    rcases mapFold_spec sig profiles ("Unknown", 0) with ⟨heq, _⟩ | ⟨pre, p, suf, hps, _, hlt, _, _⟩
    · exact heq
    · exfalso
      have : p.score_fn sig = 0 := hall p (by rw [hps]; simp)
      rw [this] at hlt
      exact absurd hlt (by norm_num)
  · intro ⟨p0, hp0, hpos⟩
    rcases mapFold_spec sig profiles ("Unknown", 0) with ⟨_, hle⟩ | ⟨pre, p, suf, hps, heq, _, hpre, hsuf⟩
    · exact absurd (hle p0 hp0) (by simpa using not_le.mpr hpos)
    · exact ⟨pre, p, suf, hps, heq, hpre, hsuf⟩

theorem mapSignature_selection_witness :
    (∃ p ∈ profiles, 0 < p.score_fn sigRecon) ∧
    (∃ pre p suf, profiles = pre ++ p :: suf ∧
      mapSignature sigRecon = (p.tactic, p.score_fn sigRecon) ∧
      (∀ q ∈ pre, q.score_fn sigRecon < p.score_fn sigRecon) ∧
      (∀ q ∈ suf, q.score_fn sigRecon ≤ p.score_fn sigRecon)) :=
  have hpos : ∃ p ∈ profiles, 0 < p.score_fn sigRecon :=
    ⟨⟨"Reconnaissance", reconnaissanceScore⟩, by simp [profiles],
     by norm_num [reconnaissanceScore, clamp, sigRecon]⟩
  ⟨hpos, (mapSignature_selection sigRecon).2.2.2 hpos⟩

theorem mapStep_snd_lt_one (sig : StateSignature) (best : String × ℚ) (p : TacticProfile)
    (hb : best.2 < 1) (hp : p.score_fn sig < 1) : (mapStep sig best p).2 < 1 := by
  unfold mapStep
  split_ifs <;> assumption

/-- **C5.** Every signature with `avg_out_bytes = 100000`,
`bytes_ratio = 0.001`, `avg_duration_ms = 30000` and ephemeral-port
fraction `0.7` — whatever its remaining fields — is mapped by
`MitreMapper.map` to tactic `"Exfiltration"` (its profile scores the full
1.0 and no earlier profile can reach 1.0 under these fixed fields) with
confidence strictly greater than 0.3. -/
theorem exfil_scenario_maps_to_exfiltration (sig : StateSignature)
    (h1 : sig.avg_out_bytes = 100000) (h2 : sig.bytes_ratio = 1/1000)
    (h3 : sig.avg_duration_ms = 30000)
    (h4 : sig.port_category_dist.ephemeral = 7/10) :
    (mapSignature sig).1 = "Exfiltration" ∧ 3/10 < (mapSignature sig).2 := by
  have hexfil : exfiltrationScore sig = 1 := by
    norm_num [exfiltrationScore, clamp, h1, h2, h3, h4, min_def, max_def]
  have r1 : reconnaissanceScore sig < 1 := by
    have hA : ¬ (sig.avg_in_bytes < 500 ∧ sig.avg_out_bytes < 500) := by
      rw [h1]; rintro ⟨-, hh⟩; norm_num at hh
    have hB : ¬ sig.avg_duration_ms < 1000 := by rw [h3]; norm_num
    simp only [reconnaissanceScore, if_neg hA, if_neg hB]
    split_ifs <;> norm_num [clamp, min_def, max_def]
  have rca : credentialAccessScore sig < 1 := by
    have hA : ¬ (sig.avg_in_bytes < 1000 ∧ sig.avg_out_bytes < 1000) := by
      rw [h1]; rintro ⟨-, hh⟩; norm_num at hh
    have hB : ¬ sig.avg_duration_ms < 5000 := by rw [h3]; norm_num
    simp only [credentialAccessScore, if_neg hA, if_neg hB]
    split_ifs <;> norm_num [clamp, min_def, max_def]
  have rlm : lateralMovementScore sig < 1 := by
    have hB : ¬ (1000 < sig.avg_duration_ms ∧ sig.avg_duration_ms < 30000) := by
      rw [h3]; rintro ⟨-, hh⟩; norm_num at hh
    simp only [lateralMovementScore, if_neg hB]
    split_ifs <;> norm_num [clamp, min_def, max_def]
  have rc2 : c2Score sig < 1 := by
    have hA : ¬ sig.avg_duration_ms > 30000 := by rw [h3]; norm_num
    have hB : ¬ (5/10 < sig.bytes_ratio ∧ sig.bytes_ratio < 2) := by
      rw [h2]; rintro ⟨hh, -⟩; norm_num at hh
    simp only [c2Score, if_neg hA, if_neg hB]
    split_ifs <;> norm_num [clamp, min_def, max_def]
  have hmap : mapSignature sig = ("Exfiltration", 1) := by
    show List.foldl (mapStep sig) ("Unknown", 0) profiles = _
    rw [profiles]
    simp only [List.foldl_cons, List.foldl_nil]
    have hb5 : (mapStep sig (mapStep sig (mapStep sig (mapStep sig (mapStep sig ("Unknown", 0)
        ⟨"Reconnaissance", reconnaissanceScore⟩) ⟨"Discovery", reconnaissanceScore⟩)
        ⟨"Credential Access", credentialAccessScore⟩) ⟨"Lateral Movement", lateralMovementScore⟩)
        ⟨"Command and Control", c2Score⟩).2 < 1 :=
      mapStep_snd_lt_one sig _ _
        (mapStep_snd_lt_one sig _ _
          (mapStep_snd_lt_one sig _ _
            (mapStep_snd_lt_one sig _ _
              (mapStep_snd_lt_one sig _ _ (by norm_num) r1) r1) rca) rlm) rc2
    rw [show mapStep sig (mapStep sig (mapStep sig (mapStep sig (mapStep sig (mapStep sig
        ("Unknown", 0) ⟨"Reconnaissance", reconnaissanceScore⟩) ⟨"Discovery", reconnaissanceScore⟩)
        ⟨"Credential Access", credentialAccessScore⟩) ⟨"Lateral Movement", lateralMovementScore⟩)
        ⟨"Command and Control", c2Score⟩) ⟨"Exfiltration", exfiltrationScore⟩
        = ("Exfiltration", 1) from by
      unfold mapStep
      rw [if_pos]
      · show ("Exfiltration", exfiltrationScore sig) = ("Exfiltration", 1)
        rw [hexfil]
      · show exfiltrationScore sig > _
        rw [hexfil]; exact hb5]
    unfold mapStep
    rw [if_neg]
    show ¬ benignScore sig > 1
    exact not_lt.mpr (clamp_le_one _)
  rw [hmap]
  norm_num

theorem exfil_scenario_witness :
    (sigExfil.avg_out_bytes = 100000 ∧ sigExfil.bytes_ratio = 1/1000 ∧
     sigExfil.avg_duration_ms = 30000 ∧ sigExfil.port_category_dist.ephemeral = 7/10) ∧
    ((mapSignature sigExfil).1 = "Exfiltration" ∧ 3/10 < (mapSignature sigExfil).2) :=
  ⟨⟨rfl, rfl, rfl, rfl⟩,
   exfil_scenario_maps_to_exfiltration sigExfil rfl rfl rfl rfl⟩

/-- **C6.** On an untrained `AttackPhaseHMM` (`fit` never called, so the
underlying model is `None`), each of `predict_states`, `score`,
`get_transition_matrix`, `get_emission_means`, `get_emission_covariances`
and `compute_bic` fails with the invalid-state error
`"Model not fitted. Call fit() first."` naming the missing prerequisite,
and the object's state after every failed call is unchanged. -/
theorem untrained_model_errors (h : AttackPhaseHMM) (hu : h.model = none)
    (logFn : ℚ → ℚ) (X : List (Fin 12 → ℚ)) (lengths : List Nat) :
    h.predict_states X lengths = (.error notFittedMsg, h) ∧
    h.score X lengths = (.error notFittedMsg, h) ∧
    h.get_transition_matrix = (.error notFittedMsg, h) ∧
    h.get_emission_means = (.error notFittedMsg, h) ∧
    h.get_emission_covariances = (.error notFittedMsg, h) ∧
    AttackPhaseHMM.compute_bic logFn h X lengths = (.error notFittedMsg, h) ∧
    notFittedMsg = "Model not fitted. Call fit() first." := by
  refine ⟨?_, ?_, ?_, ?_, ?_, ?_, rfl⟩ <;>
    simp only [AttackPhaseHMM.predict_states, AttackPhaseHMM.score,
      AttackPhaseHMM.get_transition_matrix, AttackPhaseHMM.get_emission_means,
      AttackPhaseHMM.get_emission_covariances, AttackPhaseHMM.compute_bic, hu]

theorem untrained_model_errors_witness :
    untrainedModel.model = none ∧
    (untrainedModel.predict_states [] [] = (.error notFittedMsg, untrainedModel) ∧
     untrainedModel.score [] [] = (.error notFittedMsg, untrainedModel) ∧
     untrainedModel.get_transition_matrix = (.error notFittedMsg, untrainedModel) ∧
     untrainedModel.get_emission_means = (.error notFittedMsg, untrainedModel) ∧
     untrainedModel.get_emission_covariances = (.error notFittedMsg, untrainedModel) ∧
     AttackPhaseHMM.compute_bic id untrainedModel [] [] = (.error notFittedMsg, untrainedModel) ∧
     notFittedMsg = "Model not fitted. Call fit() first.") :=
  ⟨rfl, untrained_model_errors untrainedModel rfl id [] []⟩

theorem selectStep_snd (fitBic : Nat → Option ℚ) (best : Option ℚ × Nat) (k : Nat) :
    (selectStep fitBic best k).2 = best.2 ∨ (selectStep fitBic best k).2 = k := by
  rcases best with ⟨b1, b2⟩
  rcases hf : fitBic k with - | bic
  · simp only [selectStep, hf]
    exact Or.inl trivial
  · rcases b1 with - | bb
    · simp only [selectStep, hf]
      exact Or.inr trivial
    · simp only [selectStep, hf]
      by_cases hlt : bic < bb
      · rw [if_pos hlt]
        exact Or.inr rfl
      · rw [if_neg hlt]
        exact Or.inl rfl

theorem selectFold_snd (fitBic : Nat → Option ℚ) :
    ∀ (ks : List Nat) (acc : Option ℚ × Nat),
      (ks.foldl (selectStep fitBic) acc).2 = acc.2 ∨
      (ks.foldl (selectStep fitBic) acc).2 ∈ ks := by
  intro ks
  induction ks with
  | nil => intro acc; exact Or.inl rfl
  | cons k ks ih =>
    intro acc
    rw [List.foldl_cons]
    rcases ih (selectStep fitBic acc k) with h | h
    · rw [h]
      rcases selectStep_snd fitBic acc k with h2 | h2
      · exact Or.inl h2
      · rw [h2]
        exact Or.inr (List.mem_cons_self k ks)
    · exact Or.inr (List.mem_cons_of_mem k h)

theorem selectFold_all_skipped (fitBic : Nat → Option ℚ) :
    ∀ (ks : List Nat) (acc : Option ℚ × Nat),
      (∀ k ∈ ks, fitBic k = none) → ks.foldl (selectStep fitBic) acc = acc := by
  intro ks
  induction ks with
  | nil => intro acc _; rfl
  | cons k ks ih =>
    intro acc hall
    rw [List.foldl_cons]
    have hk : selectStep fitBic acc k = acc := by
      unfold selectStep
      rw [hall k (List.mem_cons_self k ks)]
    rw [hk]
    exact ih acc (fun j hj => hall j (List.mem_cons_of_mem k hj))

/-- **C7.** Whenever `min_states ≤ max_states`, `select_n_states` returns a
value in the inclusive range `[min_states, max_states]`, and when every
candidate in the range fails to converge it returns the lowest candidate. -/
theorem select_n_states_in_range (fitBic : Nat → Option ℚ) (lo hi : Nat)
    (hle : lo ≤ hi) :
    (lo ≤ select_n_states fitBic lo hi ∧ select_n_states fitBic lo hi ≤ hi) ∧
    ((∀ k, lo ≤ k → k ≤ hi → fitBic k = none) →
      select_n_states fitBic lo hi = lo) := by
  constructor
  · rcases selectFold_snd fitBic (List.range' lo (hi + 1 - lo)) ((none : Option ℚ), lo)
      with h | h
    · rw [select_n_states, h]
      exact ⟨le_refl lo, hle⟩
    · rw [List.mem_range'_1] at h
      rw [select_n_states]
      omega
  · intro hall
    rw [select_n_states,
      selectFold_all_skipped fitBic (List.range' lo (hi + 1 - lo)) ((none : Option ℚ), lo)
        (fun k hk => by
          rw [List.mem_range'_1] at hk
          exact hall k hk.1 (by omega))]

theorem select_n_states_in_range_witness :
    (4 : Nat) ≤ 8 ∧
    (4 ≤ select_n_states (fun _ => none) 4 8 ∧ select_n_states (fun _ => none) 4 8 ≤ 8) ∧
    select_n_states (fun _ => none) 4 8 = 4 :=
  ⟨by norm_num,
   (select_n_states_in_range (fun _ => none) 4 8 (by norm_num)).1,
   (select_n_states_in_range (fun _ => none) 4 8 (by norm_num)).2 (fun _ _ _ => rfl)⟩

/-- **C8 counterexample.** When every candidate in the range fails, no
fatal error is raised: `select_n_states` returns the lowest candidate
through the same normal return path as a run with per-candidate failures —
the total-failure case is not distinct from the per-candidate case.  Here
with the default range 4..15: all candidates failing yields the plain
value 4, and a run where all but candidate 9 fail yields the plain
value 9. -/
theorem select_total_failure_returns_fallback :
    select_n_states (fun _ => (none : Option ℚ)) 4 15 = 4 ∧
    select_n_states (fun k => if k = 9 then some 5 else (none : Option ℚ)) 4 15 = 9 := by
  constructor <;> rfl

/-- **C8 (amended).** A candidate that fails to converge is caught and
skipped — the selection result is exactly the result of folding the
selection rule over the successful `(candidate, BIC)` pairs only — and when
every candidate across the whole range fails, `select_n_states` does not
raise: it returns the lowest candidate in the range as an ordinary value. -/
theorem select_skips_failures (fitBic : Nat → Option ℚ) (lo hi : Nat) :
    (select_n_states fitBic lo hi = selectFromSuccessfulCandidates lo
      ((List.range' lo (hi + 1 - lo)).filterMap
        (fun k => (fitBic k).map (fun b => (k, b))))) ∧
    ((∀ k ∈ List.range' lo (hi + 1 - lo), fitBic k = none) →
      select_n_states fitBic lo hi = lo) := by
  constructor
  · rw [select_n_states, selectFromSuccessfulCandidates]
    congr 1
    generalize ((none : Option ℚ), lo) = acc
    induction List.range' lo (hi + 1 - lo) generalizing acc with
    | nil => rfl
    | cons k ks ih =>
      rcases hk : fitBic k with - | bic
      · rw [List.foldl_cons,
          show selectStep fitBic acc k = acc from by simp only [selectStep, hk],
          show List.filterMap (fun j => (fitBic j).map (fun b => (j, b))) (k :: ks)
              = List.filterMap (fun j => (fitBic j).map (fun b => (j, b))) ks from by
            simp [List.filterMap_cons, hk]]
        exact ih acc
      · rw [List.foldl_cons,
          show selectStep fitBic acc k = succStep acc (k, bic) from by
            simp only [selectStep, succStep, hk],
          show List.filterMap (fun j => (fitBic j).map (fun b => (j, b))) (k :: ks)
              = (k, bic) :: List.filterMap (fun j => (fitBic j).map (fun b => (j, b))) ks from by
            simp [List.filterMap_cons, hk],
          List.foldl_cons]
        exact ih (succStep acc (k, bic))
  · intro hall
    rw [select_n_states,
      selectFold_all_skipped fitBic (List.range' lo (hi + 1 - lo)) ((none : Option ℚ), lo) hall]

theorem select_skips_failures_witness :
    (∀ k ∈ List.range' 5 3, (fun _ => (none : Option ℚ)) k = none) ∧
    (select_n_states (fun _ => (none : Option ℚ)) 5 7 = selectFromSuccessfulCandidates 5
      ((List.range' 5 (7 + 1 - 5)).filterMap
        (fun k => ((fun _ => (none : Option ℚ)) k).map (fun b => (k, b))))) ∧
    select_n_states (fun _ => (none : Option ℚ)) 5 7 = 5 :=
  ⟨fun _ _ => rfl,
   (select_skips_failures (fun _ => none) 5 7).1,
   (select_skips_failures (fun _ => none) 5 7).2 (fun _ _ => rfl)⟩

/-- **C9.** `save` followed by `load` restores every Model field
(`n_states`, `n_iter`, `random_state` and the trained parameter object)
exactly, so decoding and scoring the same observations with the loaded
model yield results identical to the original's.  (joblib's
serialize/deserialize of the record is the identity.) -/
theorem save_load_roundtrip (h : AttackPhaseHMM) (g : GaussianHMM)
    (hf : h.model = some g) (X : List (Fin 12 → ℚ)) (lengths : List Nat) :
    AttackPhaseHMM.load h.save = h ∧
    (AttackPhaseHMM.load h.save).predict_states X lengths = h.predict_states X lengths ∧
    (AttackPhaseHMM.load h.save).score X lengths = h.score X lengths := by
  have hload : AttackPhaseHMM.load h.save = h := by
    cases h
    rfl
  exact ⟨hload, by rw [hload], by rw [hload]⟩

theorem save_load_roundtrip_witness :
    fittedModel.model = some gaussConst ∧
    (AttackPhaseHMM.load fittedModel.save = fittedModel ∧
     (AttackPhaseHMM.load fittedModel.save).predict_states [] [] =
       fittedModel.predict_states [] [] ∧
     (AttackPhaseHMM.load fittedModel.save).score [] [] = fittedModel.score [] []) :=
  ⟨rfl, save_load_roundtrip fittedModel gaussConst rfl [] []⟩

theorem chunkByGap_cons (g : Int) :
    ∀ (l : List Flow) (f : Flow), ∃ c cs, chunkByGap g (f :: l) = (f :: c) :: cs := by
  intro l
  induction l with
  | nil => intro f; exact ⟨[], [], rfl⟩
  | cons f2 rest ih =>
    intro f
    obtain ⟨c, cs, h⟩ := ih f2
    simp only [chunkByGap, h]
    by_cases hgap : f2.start_ms - f.start_ms > g
    · rw [if_pos hgap]
      exact ⟨[], (f2 :: c) :: cs, rfl⟩
    · rw [if_neg hgap]
      exact ⟨f2 :: c, cs, rfl⟩

theorem chunkByGap_flatten (g : Int) :
    ∀ l : List Flow, (chunkByGap g l).flatten = l := by
  intro l
  induction l with
  | nil => rfl
  | cons f1 rest ih =>
    cases rest with
    | nil => rfl
    | cons f2 rest2 =>
      obtain ⟨c, cs, h⟩ := chunkByGap_cons g rest2 f2
      simp only [chunkByGap, h]
      by_cases hgap : f2.start_ms - f1.start_ms > g
      · rw [if_pos hgap, List.flatten_cons, ← h, ih]
        rfl
      · rw [if_neg hgap]
        have ihh : (f2 :: c) ++ cs.flatten = f2 :: rest2 := by
          rw [← List.flatten_cons, ← h]
          exact ih
        rw [List.flatten_cons]
        show f1 :: ((f2 :: c) ++ cs.flatten) = f1 :: f2 :: rest2
        rw [ihh]

theorem chunkByGap_chain (g : Int) :
    ∀ l : List Flow, ∀ c ∈ chunkByGap g l,
      List.Chain' (fun a b => b.start_ms - a.start_ms ≤ g) c := by
  intro l
  induction l with
  | nil => intro c hc; simp [chunkByGap] at hc
  | cons f1 rest ih =>
    cases rest with
    | nil =>
      intro c hc
      simp only [chunkByGap, List.mem_cons, List.not_mem_nil, or_false] at hc
      rw [hc]
      exact List.chain'_singleton f1
    | cons f2 rest2 =>
      obtain ⟨c0, cs, h⟩ := chunkByGap_cons g rest2 f2
      intro c hc
      simp only [chunkByGap, h] at hc
      by_cases hgap : f2.start_ms - f1.start_ms > g
      · rw [if_pos hgap] at hc
        rcases List.mem_cons.mp hc with rfl | hc2
        · exact List.chain'_singleton f1
        · exact ih c (h ▸ hc2)
      · rw [if_neg hgap] at hc
        rcases List.mem_cons.mp hc with rfl | hc2
        · rw [List.chain'_cons]
          refine ⟨by omega, ?_⟩
          exact ih (f2 :: c0) (h ▸ List.mem_cons_self _ _)
        · exact ih c (h ▸ List.mem_cons_of_mem _ hc2)

theorem chunkByGap_boundary (g : Int) :
    ∀ l : List Flow,
      List.Chain' (fun c1 c2 => ∀ a ∈ c1.getLast?, ∀ b ∈ c2.head?,
        b.start_ms - a.start_ms > g) (chunkByGap g l) := by
  intro l
  induction l with
  | nil => simp [chunkByGap]
  | cons f1 rest ih =>
    cases rest with
    | nil => exact List.chain'_singleton _
    | cons f2 rest2 =>
      obtain ⟨c0, cs, h⟩ := chunkByGap_cons g rest2 f2
      rw [h] at ih
      simp only [chunkByGap, h]
      by_cases hgap : f2.start_ms - f1.start_ms > g
      · rw [if_pos hgap, List.chain'_cons]
        refine ⟨?_, ih⟩
        intro a ha b hb
        simp only [List.getLast?_singleton, Option.mem_def, Option.some_inj] at ha
        simp only [List.head?_cons, Option.mem_def, Option.some_inj] at hb
        rw [← ha, ← hb]
        exact hgap
      · rw [if_neg hgap]
        rcases List.chain'_cons'.mp ih with ⟨hhead, htail⟩
        rw [List.chain'_cons']
        refine ⟨?_, htail⟩
        intro y hy a ha b hb
        refine hhead y hy a ?_ b hb
        rwa [List.getLast?_cons_cons] at ha

theorem createSession_some (m : Nat) (src : String) (c : List Flow) (s : Session)
    (h : createSession m src c = some s) : m ≤ c.length ∧ s.flows = c := by
  unfold createSession at h
  by_cases hlen : c.length < m
  · rw [if_pos hlen] at h
    cases h
  · rw [if_neg hlen] at h
    refine ⟨by omega, ?_⟩
    injection h with h2
    rw [← h2]

/-- **C3.** Session building splits a sorted same-source run exactly at the
gaps strictly greater than the threshold: the gap-chunks concatenate back
to the run (nothing lost), adjacent flows inside one chunk (session) have
gap at most the threshold — a gap exactly equal to the threshold does not
split — while the flows across a chunk boundary have gap strictly greater
than the threshold (one unit over suffices); and `build_sessions` keeps
exactly the chunks whose length reaches the configured minimum, discarding
shorter runs. -/
theorem build_sessions_gap_splitting (g : Int) (m : Nat) (l flows : List Flow) :
    (chunkByGap g l).flatten = l ∧
    (∀ c ∈ chunkByGap g l,
      List.Chain' (fun a b => b.start_ms - a.start_ms ≤ g) c) ∧
    List.Chain' (fun c1 c2 => ∀ a ∈ c1.getLast?, ∀ b ∈ c2.head?,
      b.start_ms - a.start_ms > g) (chunkByGap g l) ∧
    (∀ s ∈ buildSessions g m flows, m ≤ s.flows.length ∧
      ∃ src ∈ groupKeys flows,
        s.flows ∈ chunkByGap g (sortByStart (flows.filter (fun f => f.src_addr = src)))) ∧
    (∀ src ∈ groupKeys flows,
      ∀ c ∈ chunkByGap g (sortByStart (flows.filter (fun f => f.src_addr = src))),
        m ≤ c.length → ∃ s ∈ buildSessions g m flows, s.flows = c) := by
  refine ⟨chunkByGap_flatten g l, chunkByGap_chain g l, chunkByGap_boundary g l, ?_, ?_⟩
  · intro s hs
    rw [buildSessions, List.mem_flatMap] at hs
    obtain ⟨src, hsrc, hmem⟩ := hs
    rw [List.mem_filterMap] at hmem
    obtain ⟨c, hc, hsome⟩ := hmem
    obtain ⟨hlen, hflows⟩ := createSession_some m src c s hsome
    exact ⟨by rw [hflows]; exact hlen, src, hsrc, by rw [hflows]; exact hc⟩
  · intro src hsrc c hc hlen
    have hex : ∃ s, createSession m src c = some s ∧ s.flows = c := by
      unfold createSession
      rw [if_neg (by omega)]
      exact ⟨_, rfl, rfl⟩
    obtain ⟨s, hsome, hflows⟩ := hex
    refine ⟨s, ?_, hflows⟩
    rw [buildSessions, List.mem_flatMap]
    exact ⟨src, hsrc, List.mem_filterMap.mpr ⟨c, hc, hsome⟩⟩

theorem build_sessions_gap_splitting_witness :
    ("10.0.0.1" ∈ groupKeys sessionFlowsW ∧
     sessionFlowsW ∈ chunkByGap 10
       (sortByStart (sessionFlowsW.filter (fun f => f.src_addr = "10.0.0.1"))) ∧
     3 ≤ sessionFlowsW.length) ∧
    (∃ s ∈ buildSessions 10 3 sessionFlowsW, s.flows = sessionFlowsW) :=
  ⟨⟨by decide, by decide, by decide⟩,
   (build_sessions_gap_splitting 10 3 [] sessionFlowsW).2.2.2.2 "10.0.0.1"
     (by decide) sessionFlowsW (by decide) (by decide)⟩

/-- **C1 (code bug witnessed on the code).** On `mixedFlows` (four input
flows: three from `"10.0.0.1"` forming a valid session, one from
`"192.168.1.9"` belonging to no valid session) the labeling pipeline emits
only the three session flows: the sessionless flow is dropped from the
output instead of being kept with the sentinel labels
`HMM_STATE = -1 / HMM_TACTIC = "Unknown" / HMM_CONFIDENCE = 0`.  The
sentinel fallback fires only when *no* session at all survives, as the
last conjunct shows on a single-flow table. -/
theorem label_flows_drops_sessionless_flows :
    mixedFlows.length = 4 ∧
    ((labelFlows id fittedModel none mixedFlows).toOption.getD []).length = 3 ∧
    (∀ r ∈ (labelFlows id fittedModel none mixedFlows).toOption.getD [],
      r.flow.src_addr = "10.0.0.1") ∧
    (labelFlows id fittedModel none [mkFlow "192.168.1.9" 22 0]).toOption.getD []
      = [⟨mkFlow "192.168.1.9" 22 0, -1, "Unknown", 0⟩] := by
  exact ⟨by decide, by decide, by decide, by decide⟩

end NFChat

